import Mathlib

/-!
Shallow embedding of the core of the kims-convenience-english repository:
the SM-2 spaced-repetition scheduler and review store (`src/spaced_repetition.py`)
and the quiz engine (`src/quiz_engine.py`, with the correction collaborator from
`src/broken_english.py`), together with theorems settling the frozen claims
about them.

Modelling conventions:
* Python floats are modelled as rationals (`ℚ`); all ease-factor constants in
  the source (`2.5`, `1.3`, `0.1`, `0.08`, `0.02`) and the quality values that
  reach the formula are exactly representable in binary floating point or
  combine without rounding on the inputs the claims mention, so `ℚ` is faithful
  for every property stated here.
* Python `round` is round-half-to-even (banker's rounding); `pyRound` models it.
* Calendar dates (`YYYY-MM-DD` strings handled via `datetime`) are modelled as
  integer day numbers; `datetime.now()` becomes an explicit `today` argument and
  `timedelta(days=n)` becomes integer addition, which is exact at day
  granularity.
* The JSON store (`self.data`) is a structure holding the `expressions` mapping
  (an insertion-ordered association list, like a Python dict) and the
  `statistics` block.  File I/O (`_load_data` / `_save_data`) only persists the
  in-memory state and is not part of any claim, so it is not modelled.
* Randomness (`random.shuffle`, `random.sample`, `random.choice`,
  `random.randint`, `DataFrame.sample`) is modelled by explicit oracle
  parameters; each theorem quantifies over all oracles satisfying a validity
  predicate that says exactly what the library call guarantees (a shuffle is a
  permutation, a sample is a draw without replacement of the requested size,
  and so on).
* Python's nondeterministically-ordered `list(set(...))` is likewise an oracle
  constrained to return a duplicate-free list with the same members.
-/

namespace KimsConvenience

/-- Python's built-in `round` on a rational value: round half to even
("banker's rounding"), as used by `round(interval * new_ease_factor)` in
`SM2Algorithm.calculate_next_interval`. -/
def pyRound (x : ℚ) : ℤ :=
  let f := ⌊x⌋
  let r := x - (f : ℚ)
  if r < 1/2 then f
  else if 1/2 < r then f + 1
  else if f % 2 = 0 then f else f + 1

/-- `SM2Algorithm.calculate_next_interval` (src/spaced_repetition.py, lines 15-60).

```
if quality < 3:
    return 1, ease_factor, 0
new_ease_factor = ease_factor + (0.1 - (5 - quality) * (0.08 + (5 - quality) * 0.02))
new_ease_factor = max(1.3, new_ease_factor)
new_repetitions = repetitions + 1
if repetitions == 0:   new_interval = 1
elif repetitions == 1: new_interval = 6
else:                  new_interval = round(interval * new_ease_factor)
return new_interval, new_ease_factor, new_repetitions
```
-/
def calculate_next_interval (quality : ℤ) (repetitions : ℕ) (ease_factor : ℚ)
    (interval : ℤ) : ℤ × ℚ × ℕ :=
  if quality < 3 then (1, ease_factor, 0)
  else
    let new_ease_factor :=
      max (13/10)
        (ease_factor + (1/10 - (5 - (quality : ℚ)) * (8/100 + (5 - (quality : ℚ)) * (2/100))))
    let new_repetitions := repetitions + 1
    let new_interval : ℤ :=
      if repetitions = 0 then 1
      else if repetitions = 1 then 6
      else pyRound ((interval : ℚ) * new_ease_factor)
    (new_interval, new_ease_factor, new_repetitions)

/-- One entry of `self.data["expressions"]` in `LearningDataManager`. -/
structure ExprRecord where
  text : String
  ease_factor : ℚ
  interval : ℤ
  repetitions : ℕ
  next_review : ℤ
  last_review : Option ℤ
  quality_history : List ℤ
  created_at : ℤ
  metadata : List (String × String)
deriving DecidableEq

/-- The `self.data["statistics"]` block. -/
structure Statistics where
  total_reviews : ℕ
  correct_rate : ℚ
  total_expressions : ℕ
deriving DecidableEq

/-- The whole `self.data` dictionary of `LearningDataManager`. -/
structure LearningData where
  expressions : List (String × ExprRecord)
  statistics : Statistics
deriving DecidableEq

/-- `LearningDataManager._load_data` when no data file exists yet: the empty
initial state. -/
def initialData : LearningData :=
  { expressions := [], statistics := { total_reviews := 0, correct_rate := 0, total_expressions := 0 } }

/-- `LearningDataManager.add_expression` (src/spaced_repetition.py, lines 118-142).
`datetime.now().strftime("%Y-%m-%d")` is the explicit `today` argument. -/
def add_expression (today : ℤ) (expression_id : String) (text : String)
    (metadata : List (String × String)) (st : LearningData) : LearningData :=
  if (st.expressions.lookup expression_id).isSome then st
  else
    let newRecord : ExprRecord :=
      { text := text
        ease_factor := 5/2
        interval := 1
        repetitions := 0
        next_review := today
        last_review := none
        quality_history := []
        created_at := today
        metadata := metadata }
    let exprs := st.expressions ++ [(expression_id, newRecord)]
    { expressions := exprs
      statistics := { st.statistics with total_expressions := exprs.length } }

/-- `LearningDataManager.record_review` (src/spaced_repetition.py, lines 144-192).
Returns `none` when the id is unknown, modelling the `KeyError` raised before
any mutation; otherwise returns the updated state. -/
def record_review (today : ℤ) (expression_id : String) (quality : ℤ)
    (st : LearningData) : Option LearningData :=
  match st.expressions.lookup expression_id with
  | none => none
  | some expr =>
    let res := calculate_next_interval quality expr.repetitions expr.ease_factor expr.interval
    let new_interval := res.1
    let new_ease_factor := res.2.1
    let new_repetitions := res.2.2
    let updated : ExprRecord :=
      { expr with
        interval := new_interval
        ease_factor := new_ease_factor
        repetitions := new_repetitions
        next_review := today + new_interval
        last_review := some today
        quality_history := expr.quality_history ++ [quality] }
    let exprs := st.expressions.map (fun p => if p.1 = expression_id then (p.1, updated) else p)
    let total_quality : ℤ := (exprs.map (fun p => p.2.quality_history.sum)).sum
    let total_count : ℕ := (exprs.map (fun p => p.2.quality_history.length)).sum
    some
      { expressions := exprs
        statistics :=
          { total_reviews := st.statistics.total_reviews + 1
            correct_rate :=
              if 0 < total_count then (total_quality : ℚ) / ((total_count : ℚ) * 5) else 0
            total_expressions := st.statistics.total_expressions } }

/-- One element of the list returned by `get_due_expressions`. -/
structure DueItem where
  id : String
  text : String
  days_overdue : ℤ
  metadata : List (String × String)
deriving DecidableEq

/-- `LearningDataManager.get_due_expressions` (src/spaced_repetition.py, lines
194-223).  `due_list.sort(key=lambda x: x["days_overdue"], reverse=True)` is a
stable descending sort, modelled by the (stable) insertion sort with the
flipped comparison. -/
def get_due_expressions (date : ℤ) (st : LearningData) : List DueItem :=
  let due_list :=
    (st.expressions.filter (fun p => p.2.next_review ≤ date)).map
      (fun p =>
        { id := p.1, text := p.2.text, days_overdue := date - p.2.next_review
          metadata := p.2.metadata })
  due_list.insertionSort (fun a b => b.days_overdue ≤ a.days_overdue)

/-- A call against the review store: `add_expression` or `record_review`,
with the wall-clock day of the call made explicit. -/
inductive StoreOp where
  | add (today : ℤ) (expression_id text : String) (metadata : List (String × String))
  | review (today : ℤ) (expression_id : String) (quality : ℤ)

/-- Apply one store operation; a `record_review` that raises `KeyError`
leaves the state unchanged (the exception propagates before any mutation). -/
def applyOp (st : LearningData) (op : StoreOp) : LearningData :=
  match op with
  | .add today id text md => add_expression today id text md st
  | .review today id q => (record_review today id q st).getD st

/-- Run a sequence of store operations from the empty initial state. -/
def applyOps (ops : List StoreOp) : LearningData :=
  ops.foldl applyOp initialData

/-- The date relation the code actually maintains for a single record:
`next_review = last_review + interval` once reviewed, and
`next_review = created_at` (today at creation, with no interval added)
while never reviewed. -/
def recordDateOk (r : ExprRecord) : Bool :=
  match r.last_review with
  | some d => r.next_review = d + r.interval
  | none => r.next_review = r.created_at

/-- The date relation claimed by the spec:
`next_review = last_review + interval` once reviewed, and
`next_review = created_at + interval` while never reviewed. -/
def specRecordDateOk (r : ExprRecord) : Bool :=
  match r.last_review with
  | some d => r.next_review = d + r.interval
  | none => r.next_review = r.created_at + r.interval

/-- Every stored record satisfies `recordDateOk`. -/
@[reducible] def dateInvariant (st : LearningData) : Prop :=
  ∀ p ∈ st.expressions, recordDateOk p.2

/-- Every stored record satisfies the spec's `specRecordDateOk`. -/
@[reducible] def specDateInvariant (st : LearningData) : Prop :=
  ∀ p ∈ st.expressions, specRecordDateOk p.2

/-! ## Quiz engine (src/quiz_engine.py) -/

/-- One row of the subtitle DataFrame, restricted to the two columns the quiz
engine reads: `clean_subtitle` and `Machine Translation`. -/
structure Row where
  clean_subtitle : String
  machine_translation : String
deriving DecidableEq

/-- The quiz dictionary produced by the generators.  `hint` is present only in
the fill-blank and grammar-correction quizzes. -/
structure Quiz where
  type : String
  question : String
  hint : Option String
  choices : List String
  correct_index : ℕ
  correct_answer : String
  explanation : String
deriving DecidableEq

/-- `len(x.split())`: the number of maximal whitespace-free runs in `x`
(Python `str.split()` with no argument splits on any whitespace and drops
empty fields). -/
def word_count (s : String) : ℕ :=
  ((s.toList.splitOnP (fun c => c.isWhitespace)).filter (fun w => w ≠ [])).length

/-- Validity of an oracle modelling `DataFrame.sample(n)` on the rows of a
pool: a draw of `min n (length pool)` distinct rows, in any order. -/
def pickRowsValid (pick : List Row → ℕ → List Row) : Prop :=
  ∀ l n, (pick l n).Subperm l ∧ (pick l n).length = min n l.length

/-- Validity of an oracle modelling `random.sample(l, n)` on strings. -/
def pickWordsValid (pick : List String → ℕ → List String) : Prop :=
  ∀ l n, (pick l n).Subperm l ∧ (pick l n).length = min n l.length

/-- Validity of an oracle modelling `random.shuffle`. -/
def shuffleValid (shuffle : List String → List String) : Prop :=
  ∀ l, (shuffle l).Perm l

/-- Validity of an oracle modelling `random.choice`. -/
def chooseValid (choose : List String → String) : Prop :=
  ∀ l, l ≠ [] → choose l ∈ l

/-- Validity of an oracle modelling Python's `list(set(l))`: a duplicate-free
list with exactly the members of `l`, in an unspecified order. -/
def dedupValid (dedupF : List String → List String) : Prop :=
  ∀ l, (dedupF l).Nodup ∧ ∀ x, x ∈ dedupF l ↔ x ∈ l

/-- `QuizEngine._generate_wrong_choices` (src/quiz_engine.py, lines 224-262).

`candidates.sort_values('len_diff')` sorts ascending by
`abs(len(x.split()) - correct_len)`; `head(50)` then keeps the top 50 when the
candidate set is at least that large, and `sample` draws `num_available`
distinct rows from the pool (the oracle `pick`). -/
def generate_wrong_choices (df : List Row) (correct_row : Row) (num_wrong : ℕ)
    (col : Row → String) (pick : List Row → ℕ → List Row) : List String :=
  let correct_text := col correct_row
  let correct_len := word_count correct_text
  let candidates := df.filter (fun r => col r ≠ correct_text)
  let sorted := candidates.insertionSort (fun a b =>
    ((word_count (col a) : ℤ) - correct_len).natAbs ≤
      ((word_count (col b) : ℤ) - correct_len).natAbs)
  let sample_pool := if 50 ≤ candidates.length then sorted.take 50 else sorted
  let num_available := min num_wrong sample_pool.length
  if num_available = 0 then []
  else (pick sample_pool num_available).map col

/-- `QuizEngine.generate_kr_to_en_quiz` (src/quiz_engine.py, lines 28-72). -/
def generate_kr_to_en_quiz (df : List Row) (expression_row : Row) (num_choices : ℕ)
    (pick : List Row → ℕ → List Row) (shuffle : List String → List String) : Quiz :=
  let correct_english := expression_row.clean_subtitle
  let correct_korean := expression_row.machine_translation
  let wrong_choices :=
    generate_wrong_choices df expression_row (num_choices - 1) (fun r => r.clean_subtitle) pick
  let all_choices := shuffle (correct_english :: wrong_choices)
  let correct_index := all_choices.indexOf correct_english
  { type := "kr_to_en"
    question := correct_korean
    hint := none
    choices := all_choices
    correct_index := correct_index
    correct_answer := correct_english
    explanation := "\x27" ++ correct_korean ++ "\x27의 영어 표현은 \x27" ++ correct_english ++ "\x27입니다." }

/-- `QuizEngine.generate_en_to_kr_quiz` (src/quiz_engine.py, lines 74-110). -/
def generate_en_to_kr_quiz (df : List Row) (expression_row : Row) (num_choices : ℕ)
    (pick : List Row → ℕ → List Row) (shuffle : List String → List String) : Quiz :=
  let correct_english := expression_row.clean_subtitle
  let correct_korean := expression_row.machine_translation
  let wrong_choices :=
    generate_wrong_choices df expression_row (num_choices - 1) (fun r => r.machine_translation) pick
  let all_choices := shuffle (correct_korean :: wrong_choices)
  let correct_index := all_choices.indexOf correct_korean
  { type := "en_to_kr"
    question := correct_english
    hint := none
    choices := all_choices
    correct_index := correct_index
    correct_answer := correct_korean
    explanation := "\x27" ++ correct_english ++ "\x27의 한국어 뜻은 \x27" ++ correct_korean ++ "\x27입니다." }

/-! ### Fill-blank quiz

The regular expressions of `generate_fill_blank_quiz` are embedded over
`List Char`.  `\w` (Unicode word character) is modelled for the
alphanumeric/underscore alphabet the subtitles use; `\b` is a transition
between a word character and a non-word character (or the ends of the
string). -/

/-- Python regex `\w` (restricted to the ASCII-alphanumeric/underscore
characters that occur in the subtitle corpus). -/
def isWordChar (c : Char) : Bool := c.isAlphanum || c = '_'

/-- True when position `i` of `t` does not hold a word character (out-of-range
positions count as non-word, like the ends of the string for `\b`). -/
def noWordCharAt (t : List Char) (i : ℕ) : Bool :=
  match t[i]? with
  | none => true
  | some c => ! isWordChar c

/-- The alternatives of the preferred-key-word pattern of
`generate_fill_blank_quiz`, in the order they appear in
`r'\b(get|go|come|take|put|make|think|know|want|need|like|love|have|help|work|feel|look|seem|happy|good|bad|sorry|right|important|nice|great)\b'`. -/
def preferred_words : List String :=
  ["get", "go", "come", "take", "put", "make", "think", "know", "want", "need",
   "like", "love", "have", "help", "work", "feel", "look", "seem", "happy",
   "good", "bad", "sorry", "right", "important", "nice", "great"]

/-- Try the preferred-word alternation at position `i` of `t`, with
`re.IGNORECASE`: the first alternative that matches case-insensitively with a
word boundary on both sides wins, and the matched slice of `t` (original case,
as `match.group(0)`) is returned. -/
def matchPreferredAt (t : List Char) (i : ℕ) : Option (List Char) :=
  if i == 0 || noWordCharAt t (i - 1) then
    preferred_words.findSome? (fun w =>
      if ((t.drop i).take w.toList.length).length == w.toList.length
          && ((t.drop i).take w.toList.length).map Char.toLower == w.toList
          && noWordCharAt t (i + w.toList.length)
      then some ((t.drop i).take w.toList.length) else none)
  else none

/-- `re.search(key_words_pattern, text, re.IGNORECASE)`: the leftmost position
where some alternative matches, trying alternatives in pattern order at each
position. -/
def searchPreferred (t : List Char) : Option (List Char) :=
  (List.range t.length).findSome? (fun i => matchPreferredAt t i)

/-- The maximal runs of word characters of `t`, left to right.
Together with the length filter in `candidateWords` this is
`re.findall(r'\b\w{3,10}\b', text)`: a match of that pattern must start and end
at a word boundary, and inside a maximal run there is no boundary, so the
matches are exactly the maximal runs of length 3 to 10. -/
def wordRunsAux : List Char → List Char → List (List Char)
  | acc, [] => if acc = [] then [] else [acc.reverse]
  | acc, c :: rest =>
    if isWordChar c then wordRunsAux (c :: acc) rest
    else if acc = [] then wordRunsAux [] rest
    else acc.reverse :: wordRunsAux [] rest

/-- The maximal word-character runs of `t`. -/
def wordRuns (t : List Char) : List (List Char) := wordRunsAux [] t

/-- `re.findall(r'\b\w{3,10}\b', text)`: the maximal word-character runs of
length 3 to 10. -/
def candidateWords (t : List Char) : List (List Char) :=
  (wordRuns t).filter (fun r => 3 ≤ r.length && r.length ≤ 10)

/-- Index of the first occurrence of `needle` as a contiguous sublist of
`hay` (Python `str.find`). -/
def firstOcc (hay needle : List Char) : Option ℕ :=
  match hay with
  | [] => if needle.isPrefixOf [] then some 0 else none
  | c :: rest =>
    if needle.isPrefixOf (c :: rest) then some 0
    else (firstOcc rest needle).map (· + 1)

/-- Python `hay.replace(needle, repl, 1)`: replace only the first occurrence
of the substring `needle` (the string is returned unchanged when `needle` does
not occur). -/
def replaceFirst (hay needle repl : List Char) : List Char :=
  match firstOcc hay needle with
  | none => hay
  | some i => hay.take i ++ repl ++ hay.drop (i + needle.length)

/-- The blank marker `"_____"` substituted for the chosen word. -/
def blank_marker : String := "_____"

/-- The `verb_groups` dictionary of `_generate_similar_words`. -/
def verb_groups : List (String × List String) :=
  [("get", ["have", "take", "make"]),
   ("go", ["come", "move", "walk"]),
   ("make", ["create", "build", "form"]),
   ("think", ["believe", "consider", "suppose"]),
   ("know", ["understand", "realize", "recognize"]),
   ("want", ["need", "wish", "desire"]),
   ("like", ["love", "enjoy", "prefer"]),
   ("have", ["own", "possess", "hold"]),
   ("help", ["assist", "support", "aid"]),
   ("work", ["function", "operate", "perform"])]

/-- The `adj_groups` dictionary of `_generate_similar_words`. -/
def adj_groups : List (String × List String) :=
  [("happy", ["glad", "pleased", "joyful"]),
   ("good", ["nice", "fine", "great"]),
   ("bad", ["poor", "wrong", "terrible"]),
   ("sorry", ["apologetic", "regretful", "sad"]),
   ("important", ["significant", "crucial", "vital"])]

/-- `QuizEngine._generate_similar_words` without the final sampling step: the
pool of similar words for `word` — the matching verb group, else the matching
adjective group, else the generic fallback pool (the two dictionaries have
disjoint keys, so looking `word.lower()` up in their concatenation is the
`if/elif/else` chain of the source) — with the answer itself filtered out
case-insensitively. -/
def similar_pool (word : String) : List String :=
  (((verb_groups ++ adj_groups).lookup word.toLower).getD
      ["good", "make", "take", "know", "think", "want", "need", "help"]).filter
    (fun w => w.toLower ≠ word.toLower)

/-- `QuizEngine._generate_similar_words` (src/quiz_engine.py, lines 264-310):
`random.sample(similar, min(num, len(similar)))` over the filtered pool. -/
def generate_similar_words (word : String) (num : ℕ)
    (pickS : List String → ℕ → List String) : List String :=
  let similar := similar_pool word
  pickS similar (min num similar.length)

/-- `QuizEngine.generate_fill_blank_quiz` (src/quiz_engine.py, lines 112-161).
`chooseW` models `random.choice(words)` in the fallback branch, `pickS` the
sampling inside `_generate_similar_words`, and `shuffle` the choice shuffle. -/
def generate_fill_blank_quiz (expression_row : Row)
    (chooseW : List String → String) (pickS : List String → ℕ → List String)
    (shuffle : List String → List String) : Option Quiz :=
  let text := expression_row.clean_subtitle
  let korean := expression_row.machine_translation
  let keyOpt : Option String :=
    match searchPreferred text.toList with
    | some m => some (String.mk m)
    | none =>
      let words := (candidateWords text.toList).map String.mk
      if words.isEmpty then none else some (chooseW words)
  match keyOpt with
  | none => none
  | some key_word =>
    let blank_text := String.mk (replaceFirst text.toList key_word.toList blank_marker.toList)
    let similar_words := generate_similar_words key_word 3 pickS
    let choices := shuffle (key_word :: similar_words)
    let correct_index := choices.indexOf key_word
    some
      { type := "fill_blank"
        question := blank_text
        hint := some ("(" ++ korean ++ ")")
        choices := choices
        correct_index := correct_index
        correct_answer := key_word
        explanation := "정답은 \x27" ++ key_word ++ "\x27입니다. 완전한 문장: \x27" ++ text ++ "\x27" }

/-! ### Grammar-correction quiz

The correction collaborator is `BrokenEnglishDetector` (src/broken_english.py).
Its regex patterns live in a config file outside the core, so the detected
issue list is a parameter; `suggest_correction` below is the embedding of how
the detector builds its result from that list. -/

/-- One detected issue, restricted to the fields the quiz engine and
`suggest_correction` consume: the matched character span `[start, stop)` of the
original text, the replacement text, and the explanation.  (`stop` is the
Python dict key `"end"`, a Lean keyword.) -/
structure Issue where
  start : ℕ
  stop : ℕ
  correction : String
  explanation : String
deriving DecidableEq

/-- One step `corrected[:start] + correction + corrected[end:]` used both by
`BrokenEnglishDetector.suggest_correction` and by
`QuizEngine._generate_fake_correction`. -/
def applyIssue (s : String) (issue : Issue) : String :=
  String.mk (s.toList.take issue.start ++ issue.correction.toList ++ s.toList.drop issue.stop)

/-- The dictionary returned by `BrokenEnglishDetector.suggest_correction`. -/
structure CorrectionResult where
  has_errors : Bool
  original : String
  corrected : String
  issues : List Issue
deriving DecidableEq

/-- `BrokenEnglishDetector.suggest_correction` (src/broken_english.py, lines
76-115), given the detected issue list (sorted by `start`, as `detect_broken`
returns it): the corrected text applies every issue from the last to the
first, so that earlier spans stay valid. -/
def suggest_correction (text : String) (detected : List Issue) : CorrectionResult :=
  if detected.isEmpty then
    { has_errors := false, original := text, corrected := text, issues := [] }
  else
    { has_errors := true
      original := text
      corrected := detected.reverse.foldl applyIssue text
      issues := detected }

/-- `QuizEngine._generate_fake_correction` (src/quiz_engine.py, lines 312-337)
with the random draw made explicit: `chosen` stands for
`random.sample(issues, num_to_fix)` and is applied in sample order, each step
splicing at the recorded offsets of the *current* (already partially
rewritten) string. -/
def generate_fake_correction (text : String) (issues : List Issue)
    (chosen : List Issue) : String :=
  if issues.isEmpty then text
  else chosen.foldl applyIssue text

/-- Validity of a draw for `_generate_fake_correction` on a non-empty issue
list: `num_to_fix = random.randint(1, max(1, len(issues) - 1))` issues sampled
without replacement, in any order. -/
@[reducible] def fakeChoiceValid (issues chosen : List Issue) : Prop :=
  chosen.Subperm issues ∧ 1 ≤ chosen.length ∧ chosen.length ≤ max 1 (issues.length - 1)

/-- `QuizEngine.generate_grammar_correction_quiz` (src/quiz_engine.py, lines
163-222).  `result` is what `broken_detector.suggest_correction(text)`
returned for `expression_row['clean_subtitle']`; `chosen1`/`chosen2` are the
two fake-correction draws, `dedupF` the `list(set(...))` order oracle and
`shuffle` the choice shuffle. -/
def generate_grammar_correction_quiz (expression_row : Row)
    (result : CorrectionResult) (chosen1 chosen2 : List Issue)
    (dedupF : List String → List String)
    (shuffle : List String → List String) : Option Quiz :=
  let text := expression_row.clean_subtitle
  let korean := expression_row.machine_translation
  if result.has_errors = false then none
  else
    let correct_text := result.corrected
    let wrong_raw :=
      [text,
       generate_fake_correction text result.issues chosen1,
       generate_fake_correction text result.issues chosen2]
    let wrong_dedup := dedupF wrong_raw
    let wrong_choices := (wrong_dedup.filter (fun c => c ≠ correct_text)).take 3
    let all_choices := shuffle (correct_text :: wrong_choices)
    let correct_index := all_choices.indexOf correct_text
    some
      { type := "grammar_correction"
        question := "다음 문장의 올바른 표현은? (원문: " ++ text ++ ")"
        hint := some ("(" ++ korean ++ ")")
        choices := all_choices
        correct_index := correct_index
        correct_answer := correct_text
        explanation :=
          "원문: \x27" ++ text ++ "\x27\n" ++ "정답: \x27" ++ correct_text ++ "\x27\n" ++
          "문법 포인트:\n" ++
          String.join (result.issues.map (fun issue => "  - " ++ issue.explanation ++ "\n")) }

/-! ### Properties the claims are stated with -/

/-- The Quiz-Object invariant of claim C3: pairwise-distinct choices, exactly
one of which is the correct answer, found at `correct_index`. -/
@[reducible] def quizWellFormed (q : Quiz) : Prop :=
  q.choices.Nodup ∧ q.choices.count q.correct_answer = 1 ∧
    q.choices[q.correct_index]? = some q.correct_answer

/-- The part of claim C3's invariant that holds over every corpus, duplicate
texts included: exactly one choice equals the correct answer, and it sits at
`correct_index`. -/
@[reducible] def quizAnswerConsistent (q : Quiz) : Prop :=
  q.choices.count q.correct_answer = 1 ∧
    q.choices[q.correct_index]? = some q.correct_answer

/-- `quizWellFormed` lifted to generators that can signal "no quiz". -/
def quizWellFormedOpt (o : Option Quiz) : Prop :=
  match o with
  | none => True
  | some q => quizWellFormed q

/-- Claim C9's description of the fill-blank question: the first substring
occurrence of the chosen word is replaced by the blank marker and the rest of
the sentence is unchanged. -/
def fillBlankQuestionOk (expression_row : Row) (o : Option Quiz) : Prop :=
  match o with
  | none => True
  | some q =>
    ∃ i, firstOcc expression_row.clean_subtitle.toList q.correct_answer.toList = some i ∧
      q.question = String.mk
        (expression_row.clean_subtitle.toList.take i ++ blank_marker.toList ++
          expression_row.clean_subtitle.toList.drop (i + q.correct_answer.toList.length))

/-- Modelled from the spec: a "partially corrected" variant as claim C6
describes it — a strict, non-empty subset of the detected issues (between 1 and
`len(issues) - 1` of them), each replacement applied at its original character
span.  Applying at original spans is well defined by substituting from the
highest start offset to the lowest, exactly as the spec's interface section
prescribes for multi-issue substitution. -/
def spec_apply_at_original_spans (text : String) (chosen : List Issue) : String :=
  (chosen.insertionSort (fun a b => b.start ≤ a.start)).foldl applyIssue text

/-- Modelled from the spec: the set of distractor strings claim C6 allows for
a grammar-correction quiz on `text` with detected `issues`. -/
@[reducible] def specStrictSubsetVariant (text : String) (issues : List Issue) (v : String) : Prop :=
  ∃ s ∈ issues.sublists, s ≠ [] ∧ s.length ≤ issues.length - 1 ∧
    v = spec_apply_at_original_spans text s

/-- What the code actually guarantees about the distractors of a generated
grammar-correction quiz (claim C6 as amended): the correct answer is the fully
corrected sentence and appears exactly once; there are at most three
distractors, pairwise distinct and distinct from the correct answer; and every
distractor is the original sentence or the sequential application of a sampled
subset of 1 to `max 1 (len(issues) - 1)` issues at their recorded (possibly
drifted) offsets. -/
def grammarDistractorsOk (expression_row : Row) (result : CorrectionResult)
    (o : Option Quiz) : Prop :=
  match o with
  | none => True
  | some q =>
    q.correct_answer = result.corrected ∧
    q.choices.Nodup ∧
    q.choices.count q.correct_answer = 1 ∧
    (q.choices.filter (fun c => c ≠ q.correct_answer)).length ≤ 3 ∧
    ∀ c ∈ q.choices, c ≠ q.correct_answer →
      c = expression_row.clean_subtitle ∨
      ∃ s, s.Subperm result.issues ∧ 1 ≤ s.length ∧
        s.length ≤ max 1 (result.issues.length - 1) ∧
        c = generate_fake_correction expression_row.clean_subtitle result.issues s

/-! ## Helper lemmas -/

theorem lookup_map_const_update {β : Type} (l : List (String × β)) (id : String) (v : β) :
    (l.map (fun p => if p.1 = id then (p.1, v) else p)).lookup id =
      (l.lookup id).map (fun _ => v) := by
  induction l with
  | nil => rfl
  | cons hd tl ih =>
    obtain ⟨k, w⟩ := hd
    by_cases hk : k = id
    · subst hk
      rw [List.map_cons, if_pos rfl]
      simp [List.lookup]
    · have hne : (id == k) = false := by
        simp only [beq_eq_false_iff_ne, ne_eq]
        exact fun h => hk h.symm
      rw [List.map_cons, if_neg hk]
      simp [List.lookup, hne, ih]

theorem subperm_map {α β : Type} (f : α → β) {l₁ l₂ : List α} (h : l₁.Subperm l₂) :
    (l₁.map f).Subperm (l₂.map f) := by
  obtain ⟨l, hperm, hsub⟩ := h
  exact ⟨l.map f, hperm.map f, hsub.map f⟩

/-- `fun l n => l.take n` is a legitimate outcome of `sample(n)`: it returns
`min n (length l)` distinct elements. -/
theorem pickRowsValid_take : pickRowsValid (fun l n => l.take n) := by
  intro l n
  exact ⟨(List.take_sublist n l).subperm, by simp [Nat.min_comm]⟩

theorem pickWordsValid_take : pickWordsValid (fun l n => l.take n) := by
  intro l n
  exact ⟨(List.take_sublist n l).subperm, by simp [Nat.min_comm]⟩

/-- The identity is a legitimate shuffle outcome. -/
theorem shuffleValid_id : shuffleValid (fun l => l) := fun l => List.Perm.refl l

/-- Taking the head is a legitimate `random.choice` outcome. -/
theorem chooseValid_headD : chooseValid (fun l => l.headD "") := by
  intro l hl
  cases l with
  | nil => exact absurd rfl hl
  | cons a t => exact List.mem_cons_self a t

/-- `List.dedup` is a legitimate `list(set(...))` outcome. -/
theorem dedupValid_dedup : dedupValid List.dedup := by
  intro l
  exact ⟨l.nodup_dedup, fun x => List.mem_dedup⟩

/-! ## Theorems for the claims -/

/-- C1: for quality 3..5 the scheduler returns the clamped ease-factor update,
increments the repetition count, and picks the interval by repetition tier
(`1`, `6`, else `round(interval * ease')`). -/
theorem C1_sm2_passing_branch (quality : ℤ) (repetitions : ℕ) (ease_factor : ℚ)
    (interval : ℤ) (h3 : 3 ≤ quality) (h5 : quality ≤ 5) :
    calculate_next_interval quality repetitions ease_factor interval =
      ((if repetitions = 0 then 1
        else if repetitions = 1 then (6 : ℤ)
        else pyRound ((interval : ℚ) *
          (max (13/10)
            (ease_factor +
              (1/10 - (5 - (quality : ℚ)) * (8/100 + (5 - (quality : ℚ)) * (2/100))))))),
       max (13/10)
         (ease_factor +
           (1/10 - (5 - (quality : ℚ)) * (8/100 + (5 - (quality : ℚ)) * (2/100)))),
       repetitions + 1) := by
  have hq : ¬ (quality < 3) := by omega
  simp only [calculate_next_interval, if_neg hq]

theorem C1_witness :
    (3 : ℤ) ≤ 4 ∧ (4 : ℤ) ≤ 5 ∧
    calculate_next_interval 4 2 (5/2) 10 =
      ((if (2 : ℕ) = 0 then 1
        else if (2 : ℕ) = 1 then (6 : ℤ)
        else pyRound ((10 : ℚ) *
          (max (13/10)
            ((5/2 : ℚ) + (1/10 - (5 - ((4 : ℤ) : ℚ)) * (8/100 + (5 - ((4 : ℤ) : ℚ)) * (2/100))))))),
       max (13/10)
         ((5/2 : ℚ) + (1/10 - (5 - ((4 : ℤ) : ℚ)) * (8/100 + (5 - ((4 : ℤ) : ℚ)) * (2/100)))),
       2 + 1) :=
  ⟨by norm_num, by norm_num, C1_sm2_passing_branch 4 2 (5/2) 10 (by norm_num) (by norm_num)⟩

/-- C2: a failing quality (0..2) resets the scheduler output to
`(interval, ease, repetitions) = (1, ease unchanged, 0)`, and `record_review`
with such a quality on an existing record stores interval 1, repetitions 0 and
the unchanged ease factor. -/
theorem C2_failed_recall_resets (quality : ℤ) (repetitions : ℕ) (ease_factor : ℚ)
    (interval : ℤ) (today : ℤ) (id : String) (st : LearningData) (rec : ExprRecord)
    (h0 : 0 ≤ quality) (h2 : quality ≤ 2)
    (hlook : st.expressions.lookup id = some rec) :
    calculate_next_interval quality repetitions ease_factor interval = (1, ease_factor, 0) ∧
    (record_review today id quality st).isSome = true ∧
    ((record_review today id quality st).getD st).expressions.lookup id =
      some { rec with
        interval := 1
        repetitions := 0
        next_review := today + 1
        last_review := some today
        quality_history := rec.quality_history ++ [quality] } := by
  have hlt : quality < 3 := by omega
  have hcalc : ∀ (r : ℕ) (e : ℚ) (i : ℤ),
      calculate_next_interval quality r e i = (1, e, 0) := by
    intro r e i
    simp only [calculate_next_interval, if_pos hlt]
  refine ⟨hcalc repetitions ease_factor interval, ?_, ?_⟩
  · simp only [record_review, hlook]
    rfl
  · simp only [record_review, hlook, Option.getD_some]
    rw [lookup_map_const_update, hlook]
    simp [hcalc rec.repetitions rec.ease_factor rec.interval]

theorem C2_witness :
    (0 : ℤ) ≤ 1 ∧ (1 : ℤ) ≤ 2 ∧
    (calculate_next_interval 1 3 (5/2) 6 = (1, 5/2, 0) ∧
      (record_review 7 "e1" 1 (add_expression 0 "e1" "hi" [] initialData)).isSome = true ∧
      ((record_review 7 "e1" 1 (add_expression 0 "e1" "hi" [] initialData)).getD
          (add_expression 0 "e1" "hi" [] initialData)).expressions.lookup "e1" =
        some { text := "hi", ease_factor := 5/2, interval := 1, repetitions := 0,
               next_review := 7 + 1, last_review := some 7, quality_history := [] ++ [1],
               created_at := 0, metadata := [] }) :=
  ⟨by norm_num, by norm_num,
    C2_failed_recall_resets 1 3 (5/2) 6 7 "e1" (add_expression 0 "e1" "hi" [] initialData)
      { text := "hi", ease_factor := 5/2, interval := 1, repetitions := 0,
        next_review := 0, last_review := none, quality_history := [], created_at := 0,
        metadata := [] }
      (by norm_num) (by norm_num) rfl⟩

/-- The ease-factor component of a passing scheduler call. -/
theorem ease_of_calc (quality : ℤ) (hq : ¬ quality < 3) (repetitions : ℕ)
    (ease_factor : ℚ) (interval : ℤ) :
    (calculate_next_interval quality repetitions ease_factor interval).2.1 =
      max (13/10)
        (ease_factor +
          (1/10 - (5 - (quality : ℚ)) * (8/100 + (5 - (quality : ℚ)) * (2/100)))) := by
  simp only [calculate_next_interval, if_neg hq]

/-- C8 (amended): the end-to-end example `(quality=4, repetitions=1, ease=2.6,
interval=1)` yields `(interval', ease', repetitions') = (6, 2.6, 2)` — the
ease adjustment at quality 4 is exactly zero, so `ease' = 2.6`, not `≈ 2.68`. -/
theorem C8_end_to_end_example :
    calculate_next_interval 4 1 (26/10) 1 = (6, 26/10, 2) := by
  have hmax : max ((13:ℚ)/10)
      ((26:ℚ)/10 + (1/10 - (5 - ((4:ℤ) : ℚ)) * (8/100 + (5 - ((4:ℤ) : ℚ)) * (2/100)))) =
      26/10 := by
    rw [show (26:ℚ)/10 + (1/10 - (5 - ((4:ℤ) : ℚ)) * (8/100 + (5 - ((4:ℤ) : ℚ)) * (2/100))) =
        26/10 by push_cast; ring_nf]
    exact max_eq_right (by norm_num)
  simp only [calculate_next_interval]
  norm_num [hmax]

/-- C8 counterexample: on the spec's own example input the ease factor computed
by the stated formula is exactly 2.6; it is not within 0.01 of the claimed
`≈ 2.68` (the gap is 0.08). -/
theorem C8_counterexample :
    (calculate_next_interval 4 1 (26/10) 1).2.1 = 26/10 ∧
    ¬ |(calculate_next_interval 4 1 (26/10) 1).2.1 - 268/100| < 1/100 ∧
    |(26:ℚ)/10 - 268/100| = 8/100 := by
  have h8 : |(26:ℚ)/10 - 268/100| = 8/100 := by
    rw [abs_of_neg (by norm_num)]
    norm_num
  have he : (calculate_next_interval 4 1 (26/10) 1).2.1 = 26/10 := by
    rw [C8_end_to_end_example]
  refine ⟨he, ?_, h8⟩
  rw [he, h8]
  norm_num

/-- C10: with ease ≥ 1.3, quality 4 leaves the ease factor exactly unchanged
(the adjustment term is exactly zero), quality 5 strictly increases it, and
quality 3 decreases it down to (never below) the 1.3 floor, strictly whenever
the ease factor is above the floor. -/
theorem C10_ease_adjustment_signs (repetitions : ℕ) (ease_factor : ℚ) (interval : ℤ)
    (h : 13/10 ≤ ease_factor) :
    ((1:ℚ)/10 - (5 - ((4:ℤ) : ℚ)) * (8/100 + (5 - ((4:ℤ) : ℚ)) * (2/100)) = 0) ∧
    (calculate_next_interval 4 repetitions ease_factor interval).2.1 = ease_factor ∧
    ease_factor < (calculate_next_interval 5 repetitions ease_factor interval).2.1 ∧
    (calculate_next_interval 3 repetitions ease_factor interval).2.1 ≤ ease_factor ∧
    13/10 ≤ (calculate_next_interval 3 repetitions ease_factor interval).2.1 ∧
    (13/10 < ease_factor →
      (calculate_next_interval 3 repetitions ease_factor interval).2.1 < ease_factor) := by
  have ht4 : (1:ℚ)/10 - (5 - ((4:ℤ) : ℚ)) * (8/100 + (5 - ((4:ℤ) : ℚ)) * (2/100)) = 0 := by
    push_cast; ring_nf
  have e4 : (calculate_next_interval 4 repetitions ease_factor interval).2.1 = ease_factor := by
    rw [ease_of_calc 4 (by norm_num) repetitions ease_factor interval, ht4, add_zero]
    exact max_eq_right h
  have e5 : (calculate_next_interval 5 repetitions ease_factor interval).2.1 =
      ease_factor + 1/10 := by
    rw [ease_of_calc 5 (by norm_num) repetitions ease_factor interval]
    rw [show (1:ℚ)/10 - (5 - ((5:ℤ) : ℚ)) * (8/100 + (5 - ((5:ℤ) : ℚ)) * (2/100)) = 1/10 by
      push_cast; ring_nf]
    exact max_eq_right (by linarith)
  have e3 : (calculate_next_interval 3 repetitions ease_factor interval).2.1 =
      max (13/10) (ease_factor - 14/100) := by
    rw [ease_of_calc 3 (by norm_num) repetitions ease_factor interval]
    rw [show ease_factor + ((1:ℚ)/10 - (5 - ((3:ℤ) : ℚ)) * (8/100 + (5 - ((3:ℤ) : ℚ)) * (2/100))) =
        ease_factor - 14/100 by push_cast; ring_nf]
  refine ⟨ht4, e4, ?_, ?_, ?_, ?_⟩
  · rw [e5]; linarith
  · rw [e3]; exact max_le h (by linarith)
  · rw [e3]; exact le_max_left _ _
  · intro hlt; rw [e3]; exact max_lt hlt (by linarith)

theorem C10_witness :
    (13:ℚ)/10 ≤ 5/2 ∧
    (((1:ℚ)/10 - (5 - ((4:ℤ) : ℚ)) * (8/100 + (5 - ((4:ℤ) : ℚ)) * (2/100)) = 0) ∧
      (calculate_next_interval 4 0 (5/2) 1).2.1 = 5/2 ∧
      (5:ℚ)/2 < (calculate_next_interval 5 0 (5/2) 1).2.1 ∧
      (calculate_next_interval 3 0 (5/2) 1).2.1 ≤ 5/2 ∧
      (13:ℚ)/10 ≤ (calculate_next_interval 3 0 (5/2) 1).2.1 ∧
      ((13:ℚ)/10 < 5/2 → (calculate_next_interval 3 0 (5/2) 1).2.1 < 5/2)) :=
  ⟨by norm_num, C10_ease_adjustment_signs 0 (5/2) 1 (by norm_num)⟩

/-- C4 (amended): `record_review` performs no quality-range validation: any
integer quality is accepted on an existing record and the record is mutated per
the scheduler output. -/
theorem C4_no_quality_validation (today : ℤ) (id : String) (quality : ℤ)
    (st : LearningData) (rec : ExprRecord)
    (hlook : st.expressions.lookup id = some rec) :
    (record_review today id quality st).isSome = true ∧
    ((record_review today id quality st).getD st).expressions.lookup id =
      some { rec with
        interval := (calculate_next_interval quality rec.repetitions rec.ease_factor rec.interval).1
        ease_factor :=
          (calculate_next_interval quality rec.repetitions rec.ease_factor rec.interval).2.1
        repetitions :=
          (calculate_next_interval quality rec.repetitions rec.ease_factor rec.interval).2.2
        next_review :=
          today + (calculate_next_interval quality rec.repetitions rec.ease_factor rec.interval).1
        last_review := some today
        quality_history := rec.quality_history ++ [quality] } := by
  constructor
  · simp only [record_review, hlook]
    rfl
  · simp only [record_review, hlook, Option.getD_some]
    rw [lookup_map_const_update, hlook]
    simp only [Option.map_some']

theorem C4_witness :
    (record_review 0 "e1" 9 (add_expression 0 "e1" "hi" [] initialData)).isSome = true ∧
    ((record_review 0 "e1" 9 (add_expression 0 "e1" "hi" [] initialData)).getD
        (add_expression 0 "e1" "hi" [] initialData)).expressions.lookup "e1" =
      some { text := "hi"
             ease_factor := (calculate_next_interval 9 0 (5/2) 1).2.1
             interval := (calculate_next_interval 9 0 (5/2) 1).1
             repetitions := (calculate_next_interval 9 0 (5/2) 1).2.2
             next_review := 0 + (calculate_next_interval 9 0 (5/2) 1).1
             last_review := some 0
             quality_history := [] ++ [9]
             created_at := 0
             metadata := [] } :=
  C4_no_quality_validation 0 "e1" 9 (add_expression 0 "e1" "hi" [] initialData)
    { text := "hi", ease_factor := 5/2, interval := 1, repetitions := 0,
      next_review := 0, last_review := none, quality_history := [], created_at := 0,
      metadata := [] } rfl

/-- C4 counterexample: calling `record_review` with the out-of-range quality 7
on an existing record is not rejected — it succeeds and mutates the stored
record (its repetition count changes from 0 to 1), so no `ValidationError`
guard exists. -/
theorem C4_counterexample :
    (record_review 0 "e1" 7 (add_expression 0 "e1" "hi" [] initialData)).isSome = true ∧
    (((record_review 0 "e1" 7 (add_expression 0 "e1" "hi" [] initialData)).getD
          initialData).expressions.lookup "e1").map (fun r => r.repetitions) = some 1 ∧
    (((add_expression 0 "e1" "hi" [] initialData).expressions.lookup "e1").map
        (fun r => r.repetitions)) = some 0 := by
  refine ⟨rfl, rfl, rfl⟩

/-- Any freshly created record satisfies the code's date relation. -/
theorem dateInvariant_applyOp (st : LearningData) (op : StoreOp)
    (h : dateInvariant st) : dateInvariant (applyOp st op) := by
  cases op with
  | add today id text md =>
    simp only [applyOp, add_expression]
    split
    · exact h
    · intro p hp
      rcases List.mem_append.1 hp with hp | hp
      · exact h p hp
      · rcases List.mem_singleton.1 hp with rfl
        simp [recordDateOk]
  | review today id q =>
    simp only [applyOp, record_review]
    cases hl : st.expressions.lookup id with
    | none => simpa using h
    | some expr =>
      simp only [Option.getD_some]
      intro p hp
      rcases List.mem_map.1 hp with ⟨p0, hp0, rfl⟩
      by_cases hk : p0.1 = id
      · rw [if_pos hk]
        simp [recordDateOk]
      · rw [if_neg hk]
        exact h p0 hp0

/-- C5 (amended): after any finite sequence of `add_expression` and
`record_review` calls, every stored record satisfies `next_review =
last_review + interval` once it has been reviewed, and `next_review =
created_at` (due immediately, with no interval added) while it has never been
reviewed. -/
theorem C5_date_relation (ops : List StoreOp) : dateInvariant (applyOps ops) := by
  have hinit : dateInvariant initialData := by
    intro p hp
    simp [initialData] at hp
  have hgen : ∀ (l : List StoreOp) (st : LearningData),
      dateInvariant st → dateInvariant (l.foldl applyOp st) := by
    intro l
    induction l with
    | nil => exact fun st h => h
    | cons op rest ih =>
      intro st h
      exact ih (applyOp st op) (dateInvariant_applyOp st op h)
  exact hgen ops initialData hinit

/-- C5 counterexample: immediately after `add_expression` on day 0 the new
record has `next_review = 0`, `created_at = 0`, `interval = 1` and no
`last_review`, so `next_review` is the creation date itself, not the claimed
`created_at + interval`. -/
theorem C5_counterexample :
    ¬ specDateInvariant (applyOps [StoreOp.add 0 "e1" "hi" []]) := by decide

/-- The flipped days-overdue comparison used by `get_due_expressions` is total
and transitive, so the insertion sort yields a descending list. -/
instance : IsTotal DueItem (fun a b => b.days_overdue ≤ a.days_overdue) :=
  ⟨fun a b => le_total b.days_overdue a.days_overdue⟩

instance : IsTrans DueItem (fun a b => b.days_overdue ≤ a.days_overdue) :=
  ⟨fun _ _ _ hab hbc => le_trans hbc hab⟩

/-- C7: `get_due_expressions d` returns exactly the stored records with
`next_review ≤ d`, annotated with `days_overdue = d - next_review`, in
descending `days_overdue` order. -/
theorem C7_due_list (date : ℤ) (st : LearningData) :
    (get_due_expressions date st).Perm
      ((st.expressions.filter (fun p => p.2.next_review ≤ date)).map
        (fun p =>
          { id := p.1, text := p.2.text, days_overdue := date - p.2.next_review
            metadata := p.2.metadata })) ∧
    (get_due_expressions date st).Pairwise
      (fun a b => b.days_overdue ≤ a.days_overdue) := by
  constructor
  · exact List.perm_insertionSort _ _
  · exact List.sorted_insertionSort _ _

/-! ## Quiz-engine lemmas -/

/-- The distractors of a translation quiz are drawn (without replacement) from
the corpus entries whose column value differs from the correct answer. -/
theorem generate_wrong_choices_subperm (df : List Row) (correct_row : Row) (num_wrong : ℕ)
    (col : Row → String) (pick : List Row → ℕ → List Row) (hpick : pickRowsValid pick) :
    (generate_wrong_choices df correct_row num_wrong col pick).Subperm
      ((df.filter (fun r => col r ≠ col correct_row)).map col) := by
  simp only [generate_wrong_choices]
  by_cases h50 : 50 ≤ (df.filter (fun r => col r ≠ col correct_row)).length
  · rw [if_pos h50]
    split
    · exact List.nil_subperm
    · exact subperm_map col
        (((hpick _ _).1.trans (List.take_sublist 50 _).subperm).trans
          (List.perm_insertionSort _ _).subperm)
  · rw [if_neg h50]
    split
    · exact List.nil_subperm
    · exact subperm_map col
        ((hpick _ _).1.trans (List.perm_insertionSort _ _).subperm)

/-- Shuffled choices `correct :: wrongs` with distinct distractors not equal to
the correct answer form a well-formed choice list. -/
theorem quiz_choice_wellformed (c : String) (wrongs choices : List String)
    (hperm : choices.Perm (c :: wrongs)) (hnot : c ∉ wrongs) (hnod : wrongs.Nodup) :
    choices.Nodup ∧ choices.count c = 1 ∧ choices[choices.indexOf c]? = some c := by
  have hnodc : (c :: wrongs).Nodup := List.nodup_cons.2 ⟨hnot, hnod⟩
  have hnodch : choices.Nodup := hperm.nodup_iff.2 hnodc
  have hmem : c ∈ choices := hperm.mem_iff.2 (List.mem_cons_self _ _)
  have hidx : choices.indexOf c < choices.length := List.indexOf_lt_length.2 hmem
  refine ⟨hnodch, List.count_eq_one_of_mem hnodch hmem, ?_⟩
  rw [List.getElem?_eq_getElem hidx, List.getElem_indexOf hidx]

/-- Shuffled choices `correct :: wrongs` with no distractor equal to the
correct answer contain it exactly once and at `correct_index`, with no
assumption on duplicates among the distractors. -/
theorem quiz_choice_consistent (c : String) (wrongs choices : List String)
    (hperm : choices.Perm (c :: wrongs)) (hnot : c ∉ wrongs) :
    choices.count c = 1 ∧ choices[choices.indexOf c]? = some c := by
  have hmem : c ∈ choices := hperm.mem_iff.2 (List.mem_cons_self _ _)
  have hidx : choices.indexOf c < choices.length := List.indexOf_lt_length.2 hmem
  refine ⟨?_, ?_⟩
  · rw [hperm.count_eq, List.count_cons_self, List.count_eq_zero.2 hnot]
  · rw [List.getElem?_eq_getElem hidx, List.getElem_indexOf hidx]

/-- Over every corpus, no distractor of a translation quiz equals the correct
answer (the candidate filter removes rows whose column value matches it). -/
theorem wrong_choices_ne (df : List Row) (correct_row : Row) (num_wrong : ℕ)
    (col : Row → String) (pick : List Row → ℕ → List Row) (hpick : pickRowsValid pick) :
    col correct_row ∉ generate_wrong_choices df correct_row num_wrong col pick := by
  intro hmem
  have hsub := generate_wrong_choices_subperm df correct_row num_wrong col pick hpick
  rcases List.mem_map.1 (hsub.subset hmem) with ⟨r, hr, hcol⟩
  have hne : col r ≠ col correct_row := by simpa using (List.mem_filter.1 hr).2
  exact hne hcol

/-- When the corpus column holds pairwise-distinct strings, the distractors of
a translation quiz are pairwise distinct (distinct rows then carry distinct
strings). -/
theorem wrong_choices_nodup (df : List Row) (correct_row : Row) (num_wrong : ℕ)
    (col : Row → String) (pick : List Row → ℕ → List Row) (hpick : pickRowsValid pick)
    (hdf : (df.map col).Nodup) :
    (generate_wrong_choices df correct_row num_wrong col pick).Nodup := by
  obtain ⟨l, hlp, hls⟩ :=
    generate_wrong_choices_subperm df correct_row num_wrong col pick hpick
  have hnodf : ((df.filter (fun r => col r ≠ col correct_row)).map col).Nodup :=
    (List.Sublist.map col (List.filter_sublist df)).nodup hdf
  exact (hlp.nodup_iff).1 (hls.nodup hnodf)

/-- A property holding for every value of an association list and for the
default holds for the result of `lookup ... |>.getD default`. -/
theorem lookup_getD_prop {α β : Type} [BEq α] (P : β → Prop) (l : List (α × β))
    (k : α) (d : β) (hl : ∀ p ∈ l, P p.2) (hd : P d) :
    P ((l.lookup k).getD d) := by
  induction l with
  | nil => exact hd
  | cons a t ih =>
    rw [List.lookup]
    cases hba : k == a.1 with
    | true =>
      simp only []
      exact hl a (List.mem_cons_self a t)
    | false =>
      simp only []
      exact ih (fun p hp => hl p (List.mem_cons_of_mem a hp))

/-- Each similar-word pool of `_generate_similar_words` is duplicate-free. -/
theorem similar_pool_nodup (word : String) : (similar_pool word).Nodup := by
  unfold similar_pool
  apply List.Nodup.filter
  apply lookup_getD_prop List.Nodup
  · intro p hp
    fin_cases hp <;> decide
  · decide

/-- The chosen word is filtered out of its own similar-word pool. -/
theorem similar_pool_not_self (word : String) : word ∉ similar_pool word := by
  intro hw
  have h := (List.mem_filter.1 hw).2
  simp at h

/-- The sampled similar words exclude the answer and are pairwise distinct. -/
theorem similar_words_good (key : String) (pickS : List String → ℕ → List String)
    (hpickS : pickWordsValid pickS) :
    key ∉ generate_similar_words key 3 pickS ∧ (generate_similar_words key 3 pickS).Nodup := by
  have hsub : (generate_similar_words key 3 pickS).Subperm (similar_pool key) :=
    (hpickS _ _).1
  constructor
  · exact fun hmem => similar_pool_not_self key (hsub.subset hmem)
  · obtain ⟨l, hlp, hls⟩ := hsub
    exact (hlp.nodup_iff).1 (hls.nodup (similar_pool_nodup key))

/-- The grammar-quiz distractor list (deduplicated, filtered, capped) never
contains the correct answer, is duplicate-free, and draws from the raw list. -/
theorem grammar_wrongs_good (correct : String) (l : List String)
    (dedupF : List String → List String) (hdedup : dedupValid dedupF) :
    correct ∉ ((dedupF l).filter (fun c => c ≠ correct)).take 3 ∧
    (((dedupF l).filter (fun c => c ≠ correct)).take 3).Nodup ∧
    ∀ c ∈ ((dedupF l).filter (fun c => c ≠ correct)).take 3, c ∈ l := by
  refine ⟨?_, ?_, ?_⟩
  · intro hmem
    have h := (List.mem_filter.1 (List.take_subset _ _ hmem)).2
    simp at h
  · exact (List.take_sublist _ _).nodup (List.Nodup.filter _ (hdedup l).1)
  · intro c hc
    exact ((hdedup l).2 c).1 (List.mem_filter.1 (List.take_subset _ _ hc)).1

/-- C3 (amended): over any corpus and any legitimate outcome of the random
draws, every quiz produced by the four generators has exactly one choice equal
to `correct_answer`, found at `correct_index` — unconditionally, duplicate
corpus texts included; the choices of fill-blank and grammar-correction
quizzes are additionally always pairwise distinct, and the choices of each
translation quiz are pairwise distinct provided its own distractor column
(`clean_subtitle` for Korean-to-English, `Machine Translation` for
English-to-Korean) holds no duplicate strings in the corpus (distinct corpus
rows with equal text can otherwise be sampled together). -/
theorem C3_quiz_object_invariant (df : List Row) (expression_row : Row) (num_choices : ℕ)
    (pick : List Row → ℕ → List Row) (pickS : List String → ℕ → List String)
    (chooseW : List String → String)
    (shuffle1 shuffle2 shuffle3 shuffle4 : List String → List String)
    (result : CorrectionResult) (chosen1 chosen2 : List Issue)
    (dedupF : List String → List String)
    (hpick : pickRowsValid pick) (hpickS : pickWordsValid pickS)
    (hs1 : shuffleValid shuffle1) (hs2 : shuffleValid shuffle2)
    (hs3 : shuffleValid shuffle3) (hs4 : shuffleValid shuffle4)
    (hdedup : dedupValid dedupF) :
    quizAnswerConsistent (generate_kr_to_en_quiz df expression_row num_choices pick shuffle1) ∧
    ((df.map (fun r => r.clean_subtitle)).Nodup →
      quizWellFormed (generate_kr_to_en_quiz df expression_row num_choices pick shuffle1)) ∧
    quizAnswerConsistent (generate_en_to_kr_quiz df expression_row num_choices pick shuffle2) ∧
    ((df.map (fun r => r.machine_translation)).Nodup →
      quizWellFormed (generate_en_to_kr_quiz df expression_row num_choices pick shuffle2)) ∧
    quizWellFormedOpt (generate_fill_blank_quiz expression_row chooseW pickS shuffle3) ∧
    quizWellFormedOpt
      (generate_grammar_correction_quiz expression_row result chosen1 chosen2 dedupF
        shuffle4) := by
  refine ⟨?_, ?_, ?_, ?_, ?_, ?_⟩
  · exact quiz_choice_consistent _ _ _ (hs1 _)
      (wrong_choices_ne df expression_row (num_choices - 1) (fun r => r.clean_subtitle)
        pick hpick)
  · intro hdf_en
    exact quiz_choice_wellformed _ _ _ (hs1 _)
      (wrong_choices_ne df expression_row (num_choices - 1) (fun r => r.clean_subtitle)
        pick hpick)
      (wrong_choices_nodup df expression_row (num_choices - 1) (fun r => r.clean_subtitle)
        pick hpick hdf_en)
  · exact quiz_choice_consistent _ _ _ (hs2 _)
      (wrong_choices_ne df expression_row (num_choices - 1)
        (fun r => r.machine_translation) pick hpick)
  · intro hdf_kr
    exact quiz_choice_wellformed _ _ _ (hs2 _)
      (wrong_choices_ne df expression_row (num_choices - 1)
        (fun r => r.machine_translation) pick hpick)
      (wrong_choices_nodup df expression_row (num_choices - 1)
        (fun r => r.machine_translation) pick hpick hdf_kr)
  · unfold generate_fill_blank_quiz
    cases hs : searchPreferred expression_row.clean_subtitle.toList with
    | some m =>
      simp only [hs]
      have hw := similar_words_good (String.mk m) pickS hpickS
      exact quiz_choice_wellformed _ _ _ (hs3 _) hw.1 hw.2
    | none =>
      simp only [hs]
      by_cases hw : ((candidateWords expression_row.clean_subtitle.toList).map String.mk).isEmpty
      · simp only [hw, if_true]
        trivial
      · simp only [hw, if_false]
        have hg := similar_words_good
          (chooseW ((candidateWords expression_row.clean_subtitle.toList).map String.mk))
          pickS hpickS
        exact quiz_choice_wellformed _ _ _ (hs3 _) hg.1 hg.2
  · unfold generate_grammar_correction_quiz
    by_cases he : result.has_errors = false
    · rw [if_pos he]
      trivial
    · rw [if_neg he]
      have hg := grammar_wrongs_good result.corrected
        [expression_row.clean_subtitle,
         generate_fake_correction expression_row.clean_subtitle result.issues chosen1,
         generate_fake_correction expression_row.clean_subtitle result.issues chosen2]
        dedupF hdedup
      exact quiz_choice_wellformed _ _ _ (hs4 _) hg.1 hg.2.1

theorem C3_witness :
    quizAnswerConsistent (generate_kr_to_en_quiz
      [⟨"one two", "하나 둘"⟩, ⟨"three", "셋"⟩, ⟨"four five six", "사 오 육"⟩]
      ⟨"one two", "하나 둘"⟩ 4 (fun l n => l.take n) (fun l => l)) ∧
    (((["one two", "three", "four five six"] : List String).Nodup →
      quizWellFormed (generate_kr_to_en_quiz
        [⟨"one two", "하나 둘"⟩, ⟨"three", "셋"⟩, ⟨"four five six", "사 오 육"⟩]
        ⟨"one two", "하나 둘"⟩ 4 (fun l n => l.take n) (fun l => l))) ∧
    quizAnswerConsistent (generate_en_to_kr_quiz
      [⟨"one two", "하나 둘"⟩, ⟨"three", "셋"⟩, ⟨"four five six", "사 오 육"⟩]
      ⟨"one two", "하나 둘"⟩ 4 (fun l n => l.take n) (fun l => l)) ∧
    ((["하나 둘", "셋", "사 오 육"] : List String).Nodup →
      quizWellFormed (generate_en_to_kr_quiz
        [⟨"one two", "하나 둘"⟩, ⟨"three", "셋"⟩, ⟨"four five six", "사 오 육"⟩]
        ⟨"one two", "하나 둘"⟩ 4 (fun l n => l.take n) (fun l => l))) ∧
    quizWellFormedOpt (generate_fill_blank_quiz ⟨"one two", "하나 둘"⟩
      (fun l => l.headD "") (fun l n => l.take n) (fun l => l)) ∧
    quizWellFormedOpt (generate_grammar_correction_quiz ⟨"one two", "하나 둘"⟩
      (suggest_correction "you is nice" [⟨4, 6, "are", "be-verb agreement"⟩])
      [⟨4, 6, "are", "be-verb agreement"⟩] [⟨4, 6, "are", "be-verb agreement"⟩]
      List.dedup (fun l => l))) :=
  C3_quiz_object_invariant
    [⟨"one two", "하나 둘"⟩, ⟨"three", "셋"⟩, ⟨"four five six", "사 오 육"⟩]
    ⟨"one two", "하나 둘"⟩ 4 (fun l n => l.take n) (fun l n => l.take n)
    (fun l => l.headD "") (fun l => l) (fun l => l) (fun l => l) (fun l => l)
    (suggest_correction "you is nice" [⟨4, 6, "are", "be-verb agreement"⟩])
    [⟨4, 6, "are", "be-verb agreement"⟩] [⟨4, 6, "are", "be-verb agreement"⟩]
    List.dedup
    pickRowsValid_take pickWordsValid_take shuffleValid_id shuffleValid_id
    shuffleValid_id shuffleValid_id dedupValid_dedup

/-- C3 counterexample: on a corpus in which two distinct rows share the
subtitle "hi", the Korean-to-English generator can legitimately draw both of
them (here: `sample` returns the head of the pool, `shuffle` the identity), so
the returned choices `["hello there", "hi", "hi"]` contain duplicates. -/
theorem C3_counterexample :
    (generate_kr_to_en_quiz [⟨"hello there", "인사"⟩, ⟨"hi", "안녕1"⟩, ⟨"hi", "안녕2"⟩]
        ⟨"hello there", "인사"⟩ 4 (fun l n => l.take n) (fun l => l)).choices =
      ["hello there", "hi", "hi"] ∧
    ¬ quizWellFormed
      (generate_kr_to_en_quiz [⟨"hello there", "인사"⟩, ⟨"hi", "안녕1"⟩, ⟨"hi", "안녕2"⟩]
        ⟨"hello there", "인사"⟩ 4 (fun l n => l.take n) (fun l => l)) :=
  ⟨by decide, by decide⟩

/-- C6 (amended): for every grammar-correction quiz generated on a correction
result with errors, the correct answer is the fully corrected sentence and
occurs exactly once; the distractors (at most 3, deduplicated, never equal to
the correct answer) consist of the original sentence and up to two fake
corrections, each produced by sampling between 1 and `max(1, len(issues)-1)`
issues and applying them sequentially in sample order at their recorded
offsets into the progressively rewritten string (so spans can drift once an
earlier replacement changes the length). -/
theorem C6_grammar_distractors (expression_row : Row) (result : CorrectionResult)
    (chosen1 chosen2 : List Issue) (dedupF : List String → List String)
    (shuffle : List String → List String)
    (h1 : fakeChoiceValid result.issues chosen1)
    (h2 : fakeChoiceValid result.issues chosen2)
    (hdedup : dedupValid dedupF) (hshuf : shuffleValid shuffle) :
    grammarDistractorsOk expression_row result
      (generate_grammar_correction_quiz expression_row result chosen1 chosen2 dedupF
        shuffle) := by
  unfold generate_grammar_correction_quiz
  by_cases he : result.has_errors = false
  · rw [if_pos he]
    trivial
  · rw [if_neg he]
    have hg := grammar_wrongs_good result.corrected
      [expression_row.clean_subtitle,
       generate_fake_correction expression_row.clean_subtitle result.issues chosen1,
       generate_fake_correction expression_row.clean_subtitle result.issues chosen2]
      dedupF hdedup
    have hperm := hshuf (result.corrected ::
      ((dedupF [expression_row.clean_subtitle,
          generate_fake_correction expression_row.clean_subtitle result.issues chosen1,
          generate_fake_correction expression_row.clean_subtitle result.issues
            chosen2]).filter (fun c => c ≠ result.corrected)).take 3)
    have hq := quiz_choice_wellformed result.corrected _ _ hperm hg.1 hg.2.1
    refine ⟨rfl, hq.1, hq.2.1, ?_, ?_⟩
    · have hne : ∀ c ∈ ((dedupF [expression_row.clean_subtitle,
          generate_fake_correction expression_row.clean_subtitle result.issues chosen1,
          generate_fake_correction expression_row.clean_subtitle result.issues
            chosen2]).filter (fun c => c ≠ result.corrected)).take 3,
          c ≠ result.corrected := by
        intro c hc
        simpa using (List.mem_filter.1 (List.take_subset _ _ hc)).2
      have hlen := (hperm.filter (fun c => c ≠ result.corrected)).length_eq
      have hfc : (result.corrected ::
          ((dedupF [expression_row.clean_subtitle,
              generate_fake_correction expression_row.clean_subtitle result.issues chosen1,
              generate_fake_correction expression_row.clean_subtitle result.issues
                chosen2]).filter (fun c => c ≠ result.corrected)).take 3).filter
            (fun c => c ≠ result.corrected) =
          ((dedupF [expression_row.clean_subtitle,
              generate_fake_correction expression_row.clean_subtitle result.issues chosen1,
              generate_fake_correction expression_row.clean_subtitle result.issues
                chosen2]).filter (fun c => c ≠ result.corrected)).take 3 := by
        rw [List.filter_cons_of_neg (by simp)]
        exact List.filter_eq_self.2 (fun c hc => by simpa using hne c hc)
      rw [hlen, hfc]
      exact List.length_take_le _ _
    · intro c hc hcne
      rcases List.mem_cons.1 (hperm.mem_iff.1 hc) with rfl | hcw
      · exact absurd rfl hcne
      · have hcr := hg.2.2 c hcw
        simp only [List.mem_cons, List.not_mem_nil, or_false] at hcr
        rcases hcr with rfl | rfl | rfl
        · exact Or.inl rfl
        · exact Or.inr ⟨chosen1, h1.1, h1.2.1, h1.2.2, rfl⟩
        · exact Or.inr ⟨chosen2, h2.1, h2.2.1, h2.2.2, rfl⟩

theorem C6_witness :
    grammarDistractorsOk ⟨"ab cd ef", "kr"⟩
      (suggest_correction "ab cd ef"
        [⟨0, 2, "XYZ", "fix1"⟩, ⟨3, 5, "W", "fix2"⟩, ⟨6, 8, "V", "fix3"⟩])
      (generate_grammar_correction_quiz ⟨"ab cd ef", "kr"⟩
        (suggest_correction "ab cd ef"
          [⟨0, 2, "XYZ", "fix1"⟩, ⟨3, 5, "W", "fix2"⟩, ⟨6, 8, "V", "fix3"⟩])
        [⟨0, 2, "XYZ", "fix1"⟩, ⟨6, 8, "V", "fix3"⟩] [⟨3, 5, "W", "fix2"⟩]
        List.dedup (fun l => l)) :=
  C6_grammar_distractors ⟨"ab cd ef", "kr"⟩
    (suggest_correction "ab cd ef"
      [⟨0, 2, "XYZ", "fix1"⟩, ⟨3, 5, "W", "fix2"⟩, ⟨6, 8, "V", "fix3"⟩])
    [⟨0, 2, "XYZ", "fix1"⟩, ⟨6, 8, "V", "fix3"⟩] [⟨3, 5, "W", "fix2"⟩]
    List.dedup (fun l => l) (by decide) (by decide) dedupValid_dedup shuffleValid_id

/-- C6 counterexample: on the sentence "ab cd ef" with three detected issues,
drawing the sample `[issue1, issue3]` (a legitimate draw: 2 issues, between 1
and `len(issues)-1 = 2`) produces the distractor "XYZ cdVf": applying issue 3
after the length-changing issue 1 splices at a stale offset.  That string
appears among the generated choices, yet it is neither the original sentence
nor any strict subset of the issues applied at the original character spans,
so the claim's description of the distractors is false. -/
theorem C6_counterexample :
    (generate_grammar_correction_quiz ⟨"ab cd ef", "kr"⟩
        (suggest_correction "ab cd ef"
          [⟨0, 2, "XYZ", "fix1"⟩, ⟨3, 5, "W", "fix2"⟩, ⟨6, 8, "V", "fix3"⟩])
        [⟨0, 2, "XYZ", "fix1"⟩, ⟨6, 8, "V", "fix3"⟩] [⟨3, 5, "W", "fix2"⟩]
        List.dedup (fun l => l)).map Quiz.choices =
      some ["XYZ W V", "ab cd ef", "XYZ cdVf", "ab W ef"] ∧
    fakeChoiceValid
      (suggest_correction "ab cd ef"
        [⟨0, 2, "XYZ", "fix1"⟩, ⟨3, 5, "W", "fix2"⟩, ⟨6, 8, "V", "fix3"⟩]).issues
      [⟨0, 2, "XYZ", "fix1"⟩, ⟨6, 8, "V", "fix3"⟩] ∧
    fakeChoiceValid
      (suggest_correction "ab cd ef"
        [⟨0, 2, "XYZ", "fix1"⟩, ⟨3, 5, "W", "fix2"⟩, ⟨6, 8, "V", "fix3"⟩]).issues
      [⟨3, 5, "W", "fix2"⟩] ∧
    "XYZ cdVf" ≠ "ab cd ef" ∧
    "XYZ cdVf" ≠
      (suggest_correction "ab cd ef"
        [⟨0, 2, "XYZ", "fix1"⟩, ⟨3, 5, "W", "fix2"⟩, ⟨6, 8, "V", "fix3"⟩]).corrected ∧
    ¬ specStrictSubsetVariant "ab cd ef"
      (suggest_correction "ab cd ef"
        [⟨0, 2, "XYZ", "fix1"⟩, ⟨3, 5, "W", "fix2"⟩, ⟨6, 8, "V", "fix3"⟩]).issues
      "XYZ cdVf" :=
  ⟨by decide, by decide, by decide, by decide, by decide, by decide⟩

/-- A successful preferred-pattern search returns a non-empty contiguous slice
of the text. -/
theorem searchPreferred_infix {t m : List Char} (h : searchPreferred t = some m) :
    m ≠ [] ∧ m <:+: t := by
  obtain ⟨i, _, hm⟩ := List.exists_of_findSome?_eq_some h
  unfold matchPreferredAt at hm
  split at hm
  · obtain ⟨w, hw, hsl⟩ := List.exists_of_findSome?_eq_some hm
    split at hsl
    · rename_i hcond
      injection hsl with hslice
      subst hslice
      have hwpos : 0 < w.toList.length := by
        have hall : ∀ x ∈ preferred_words, 0 < x.toList.length := by decide
        exact hall w hw
      simp only [Bool.and_eq_true, beq_iff_eq] at hcond
      have hlen : ((t.drop i).take w.toList.length).length = w.toList.length := hcond.1.1
      constructor
      · exact List.ne_nil_of_length_pos (by rw [hlen]; exact hwpos)
      · exact ((List.take_prefix _ _).isInfix).trans ((List.drop_suffix i t).isInfix)
    · exact absurd hsl (by simp)
  · exact absurd hm (by simp)

/-- Every run produced by `wordRunsAux acc t` is a contiguous slice of
`acc.reverse ++ t`. -/
theorem wordRunsAux_infix (t : List Char) :
    ∀ (acc r : List Char), r ∈ wordRunsAux acc t → r <:+: (acc.reverse ++ t) := by
  induction t with
  | nil =>
    intro acc r hr
    unfold wordRunsAux at hr
    split at hr
    · exact absurd hr (List.not_mem_nil r)
    · rcases List.mem_singleton.1 hr with rfl
      simp only [List.append_nil]
      exact List.infix_rfl
  | cons c rest ih =>
    intro acc r hr
    unfold wordRunsAux at hr
    by_cases hw : isWordChar c
    · rw [if_pos hw] at hr
      have h1 := ih (c :: acc) r hr
      simpa [List.reverse_cons, List.append_assoc] using h1
    · rw [if_neg hw] at hr
      by_cases ha : acc = []
      · rw [if_pos ha] at hr
        subst ha
        have h2 : r <:+: rest := by simpa using ih [] r hr
        simp only [List.reverse_nil, List.nil_append]
        exact h2.trans (List.suffix_cons c rest).isInfix
      · rw [if_neg ha] at hr
        rcases List.mem_cons.1 hr with rfl | hr2
        · exact (List.prefix_append _ _).isInfix
        · have h2 : r <:+: rest := by simpa using ih [] r hr2
          exact (h2.trans (List.suffix_cons c rest).isInfix).trans
            (List.suffix_append _ _).isInfix

/-- Each candidate word of the fallback branch is a non-empty contiguous slice
of the text. -/
theorem candidateWords_infix {t r : List Char} (h : r ∈ candidateWords t) :
    r ≠ [] ∧ r <:+: t := by
  have hmem := (List.mem_filter.1 h).1
  have hlen := (List.mem_filter.1 h).2
  constructor
  · intro hnil
    subst hnil
    simp at hlen
  · simpa using wordRunsAux_infix t [] r hmem

/-- A non-empty contiguous slice has a first occurrence. -/
theorem firstOcc_of_infix {needle hay : List Char} (h : needle <:+: hay)
    (hne : needle ≠ []) : ∃ i, firstOcc hay needle = some i := by
  induction hay with
  | nil => exact absurd (List.infix_nil.1 h) hne
  | cons c rest ih =>
    by_cases hp : needle.isPrefixOf (c :: rest)
    · exact ⟨0, by simp [firstOcc, hp]⟩
    · obtain ⟨s, u, heq⟩ := h
      cases s with
      | nil =>
        have hpre : needle <+: c :: rest := ⟨u, by simpa using heq⟩
        exact absurd (List.isPrefixOf_iff_prefix.2 hpre) (by simpa using hp)
      | cons a s2 =>
        have heq2 : a :: (s2 ++ needle ++ u) = c :: rest := by simpa using heq
        rw [List.cons.injEq] at heq2
        obtain ⟨i, hi⟩ := ih ⟨s2, u, heq2.2⟩
        exact ⟨i + 1, by simp [firstOcc, hp, hi]⟩

/-- C9: `generate_fill_blank_quiz` returns no quiz exactly when the sentence
has no preferred-pattern match and no 3-to-10-character word; when it returns
a quiz, the question replaces only the first substring occurrence of the
chosen word with the blank marker, leaving the rest of the sentence
unchanged. -/
theorem C9_fill_blank_replacement (expression_row : Row)
    (chooseW : List String → String) (pickS : List String → ℕ → List String)
    (shuffle : List String → List String) (hchoose : chooseValid chooseW) :
    (generate_fill_blank_quiz expression_row chooseW pickS shuffle = none ↔
      (searchPreferred expression_row.clean_subtitle.toList = none ∧
        candidateWords expression_row.clean_subtitle.toList = [])) ∧
    fillBlankQuestionOk expression_row
      (generate_fill_blank_quiz expression_row chooseW pickS shuffle) := by
  cases hs : searchPreferred expression_row.clean_subtitle.toList with
  | some m =>
    have hs2 : searchPreferred expression_row.clean_subtitle.data = some m := hs
    have hmi := searchPreferred_infix hs
    obtain ⟨i, hi⟩ := firstOcc_of_infix hmi.2 hmi.1
    constructor
    · simp [generate_fill_blank_quiz, hs, hs2]
    · unfold generate_fill_blank_quiz
      simp only [hs]
      have hi2 : firstOcc expression_row.clean_subtitle.toList (String.mk m).toList =
          some i := hi
      exact ⟨i, hi, congrArg String.mk (by simp only [replaceFirst, hi2])⟩
  | none =>
    by_cases hw : ((candidateWords expression_row.clean_subtitle.toList).map
        String.mk).isEmpty
    · have hcw : candidateWords expression_row.clean_subtitle.toList = [] := by
        simpa using hw
      have hs2 : searchPreferred expression_row.clean_subtitle.data = none := hs
      have hcw2 : candidateWords expression_row.clean_subtitle.data = [] := hcw
      constructor
      · simp [generate_fill_blank_quiz, hs, hs2, hcw, hcw2, hw]
      · unfold generate_fill_blank_quiz
        simp only [hs, hw, if_true]
        trivial
    · have hwb : ((candidateWords expression_row.clean_subtitle.toList).map
          String.mk).isEmpty = false := by simpa using hw
      have hwne : ((candidateWords expression_row.clean_subtitle.toList).map
          String.mk) ≠ [] := by simpa using hw
      have hkey := hchoose _ hwne
      rcases List.mem_map.1 hkey with ⟨r, hrmem, hreq⟩
      have hri := candidateWords_infix hrmem
      obtain ⟨i, hi⟩ := firstOcc_of_infix hri.2 hri.1
      have hcne : candidateWords expression_row.clean_subtitle.toList ≠ [] :=
        fun hx => hwne (by rw [hx]; rfl)
      have hs2 : searchPreferred expression_row.clean_subtitle.data = none := hs
      have hcne2 : candidateWords expression_row.clean_subtitle.data ≠ [] := hcne
      constructor
      · constructor
        · intro hnone
          simp [generate_fill_blank_quiz, hs, hs2, hcne, hcne2, hwb] at hnone
        · rintro ⟨_, hcw⟩
          exact absurd (by rw [hcw]; rfl) hwne
      · unfold generate_fill_blank_quiz
        simp only [hs]
        rw [if_neg (by rw [hwb]; simp)]
        refine ⟨i, ?_, ?_⟩
        · rw [← hreq]
          exact hi
        · rw [← hreq]
          have hi2 : firstOcc expression_row.clean_subtitle.toList
              (String.mk r).toList = some i := hi
          exact congrArg String.mk (by simp only [replaceFirst, hi2])

theorem C9_witness :
    chooseValid (fun l => l.headD "") ∧
    ((generate_fill_blank_quiz ⟨"I want to help you", "돕고 싶어"⟩
        (fun l => l.headD "") (fun l n => l.take n) (fun l => l) = none ↔
      (searchPreferred ("I want to help you" : String).toList = none ∧
        candidateWords ("I want to help you" : String).toList = [])) ∧
    fillBlankQuestionOk ⟨"I want to help you", "돕고 싶어"⟩
      (generate_fill_blank_quiz ⟨"I want to help you", "돕고 싶어"⟩
        (fun l => l.headD "") (fun l n => l.take n) (fun l => l))) :=
  ⟨chooseValid_headD,
    C9_fill_blank_replacement ⟨"I want to help you", "돕고 싶어"⟩
      (fun l => l.headD "") (fun l n => l.take n) (fun l => l) chooseValid_headD⟩

end KimsConvenience
